import Mathlib

set_option maxHeartbeats 1000000

/-! Shallow embedding of the deployment codec and transaction driver of
`pharos-cargo-stylus` (`src/main/src/deploy/mod.rs` and `src/main/src/check.rs`).
Byte vectors are `List Nat`, machine integers are `Nat` with explicit `2 ^ w`
bounds where overflow matters, fallible operations return `Except` or `Option`,
and every call made to the external chain-client capability is recorded in an
explicit trace so that ordering and absence of calls can be stated. -/

/-- Numeric value of a big-endian byte string (most significant byte first). -/
def be_val (l : List Nat) : Nat := l.foldl (fun acc b => acc * 256 + b) 0

namespace Deploy

/-- `U256::from(n).to_big_endian(&mut code_len)` with a 32-byte buffer
(deploy/mod.rs lines 184-185): byte `i` of the buffer is bits
`8*(31-i) .. 8*(31-i)+7` of `n`.  At the call site `n` is a Rust `usize`,
so `n < 2 ^ 256` always holds there. -/
def to_big_endian_32 (n : Nat) : List Nat :=
  (List.range 32).map fun i => n / 256 ^ (32 - 1 - i) % 256

/-- `contract_deployment_calldata` (deploy/mod.rs lines 183-201): the EVM
deployment prelude `PUSH32 len, DUP1, PUSH1 43, PUSH1 0, CODECOPY, PUSH1 0,
RETURN`, a version byte `0`, then the payload.  The source writes the copy
offset as `42 + 1` (prelude + version). -/
def contract_deployment_calldata (code : List Nat) : List Nat :=
  [0x7f] ++ to_big_endian_32 code.length ++
    [0x80, 0x60, 42 + 1, 0x60, 0x00, 0x39, 0x60, 0x00, 0xf3, 0x00] ++ code

/-- `extract_contract_evm_deployment_prelude` (deploy/mod.rs lines 203-208):
`calldata[0..43]`.  Rust slicing panics when the input is shorter than 43
bytes; that partiality is modelled as `none`. -/
def extract_contract_evm_deployment_prelude (calldata : List Nat) :
    Option (List Nat) :=
  if 42 + 1 ≤ calldata.length then some (calldata.take (42 + 1)) else none

/-- `extract_compressed_wasm` (deploy/mod.rs lines 210-215): `calldata[43..]`,
with the out-of-range panic modelled as `none`. -/
def extract_compressed_wasm (calldata : List Nat) : Option (List Nat) :=
  if 42 + 1 ≤ calldata.length then some (calldata.drop (42 + 1)) else none

lemma foldl_be_digits :
    ∀ (k a n : Nat),
      (((List.range k).map fun i => n / 256 ^ (k - 1 - i) % 256).foldl
          (fun acc b => acc * 256 + b) a) = a * 256 ^ k + n % 256 ^ k := by
  intro k
  induction k with
  | zero => intro a n; simp [Nat.mod_one]
  | succ k ih =>
    intro a n
    rw [List.range_succ_eq_map]
    simp only [List.map_cons, List.map_map, List.foldl_cons]
    have hfun : ((fun i => n / 256 ^ (k + 1 - 1 - i) % 256) ∘ Nat.succ) =
        fun i => n / 256 ^ (k - 1 - i) % 256 := by
      funext i
      simp only [Function.comp_apply, Nat.succ_eq_add_one]
      have he : k + 1 - 1 - (i + 1) = k - 1 - i := by omega
      rw [he]
    have hhead : k + 1 - 1 - 0 = k := by omega
    rw [hfun, hhead, ih]
    have hsplit : n % 256 ^ (k + 1) = n % 256 ^ k + 256 ^ k * (n / 256 ^ k % 256) := by
      rw [pow_succ, Nat.mod_mul]
    rw [hsplit, pow_succ]
    ring

lemma to_big_endian_32_length (n : Nat) : (to_big_endian_32 n).length = 32 := by
  simp [to_big_endian_32]

lemma be_val_to_big_endian_32 (n : Nat) (h : n < 2 ^ 256) :
    be_val (to_big_endian_32 n) = n := by
  have h32 : (256 : Nat) ^ 32 = 2 ^ 256 := by norm_num
  have := foldl_be_digits 32 0 n
  unfold be_val to_big_endian_32
  rw [this, h32, Nat.zero_mul, Nat.zero_add, Nat.mod_eq_of_lt h]

lemma contract_deployment_calldata_length (code : List Nat) :
    (contract_deployment_calldata code).length = 43 + code.length := by
  simp [contract_deployment_calldata, to_big_endian_32_length]
  omega

lemma contract_deployment_calldata_split (code : List Nat) :
    contract_deployment_calldata code =
      ([0x7f] ++ to_big_endian_32 code.length ++
        [0x80, 0x60, 42 + 1, 0x60, 0x00, 0x39, 0x60, 0x00, 0xf3, 0x00]) ++ code := by
  simp [contract_deployment_calldata, List.append_assoc]

lemma prelude_part_length (code : List Nat) :
    ([0x7f] ++ to_big_endian_32 code.length ++
      [0x80, 0x60, 42 + 1, 0x60, 0x00, 0x39, 0x60, 0x00, 0xf3, 0x00]).length = 43 := by
  simp [to_big_endian_32_length]

end Deploy

/-- C1: `contract_deployment_calldata` is total (no error condition), returns
`43 + len(p)` bytes, laid out as `0x7f` (PUSH32), the 32-byte big-endian
encoding of `len(p)`, then `DUP1, PUSH1 43, PUSH1 0, CODECOPY, PUSH1 0,
RETURN`, a version byte `0`, and the payload itself. -/
theorem contract_deployment_calldata_layout (p : List Nat)
    (hp : p.length < 2 ^ 256) :
    (Deploy.contract_deployment_calldata p).length = 43 + p.length ∧
    ∃ lenField : List Nat, lenField.length = 32 ∧ be_val lenField = p.length ∧
      Deploy.contract_deployment_calldata p =
        0x7f :: (lenField ++
          ([0x80, 0x60, 43, 0x60, 0x00, 0x39, 0x60, 0x00, 0xf3, 0x00] ++ p)) := by
  refine ⟨Deploy.contract_deployment_calldata_length p,
    Deploy.to_big_endian_32 p.length, Deploy.to_big_endian_32_length _,
    Deploy.be_val_to_big_endian_32 _ hp, ?_⟩
  simp [Deploy.contract_deployment_calldata]

/-- Witness for C1 at the concrete payload `[0xAA, 0xBB]`. -/
theorem contract_deployment_calldata_layout_witness :
    ([0xAA, 0xBB] : List Nat).length < 2 ^ 256 ∧
    ((Deploy.contract_deployment_calldata [0xAA, 0xBB]).length =
        43 + ([0xAA, 0xBB] : List Nat).length ∧
      ∃ lenField : List Nat, lenField.length = 32 ∧
        be_val lenField = ([0xAA, 0xBB] : List Nat).length ∧
        Deploy.contract_deployment_calldata [0xAA, 0xBB] =
          0x7f :: (lenField ++
            ([0x80, 0x60, 43, 0x60, 0x00, 0x39, 0x60, 0x00, 0xf3, 0x00] ++
              [0xAA, 0xBB]))) :=
  ⟨by norm_num, contract_deployment_calldata_layout [0xAA, 0xBB] (by norm_num)⟩

/-- C2: the decoder inverts the encoder: `extract_compressed_wasm` returns the
payload unchanged, and `extract_contract_evm_deployment_prelude` returns the
same 43 bytes for every payload except the 32-byte length field at offsets
`[1, 33)`, which is the big-endian encoding of the payload length. -/
theorem codec_roundtrip (p : List Nat) (hp : p.length < 2 ^ 256) :
    Deploy.extract_compressed_wasm (Deploy.contract_deployment_calldata p) =
      some p ∧
    Deploy.extract_contract_evm_deployment_prelude
        (Deploy.contract_deployment_calldata p) =
      some (0x7f :: (Deploy.to_big_endian_32 p.length ++
        [0x80, 0x60, 43, 0x60, 0x00, 0x39, 0x60, 0x00, 0xf3, 0x00])) ∧
    (Deploy.to_big_endian_32 p.length).length = 32 ∧
    be_val (Deploy.to_big_endian_32 p.length) = p.length := by
  have hsplit := Deploy.contract_deployment_calldata_split p
  have hpre := Deploy.prelude_part_length p
  have hlen := Deploy.contract_deployment_calldata_length p
  refine ⟨?_, ?_, Deploy.to_big_endian_32_length _,
    Deploy.be_val_to_big_endian_32 _ hp⟩
  · rw [Deploy.extract_compressed_wasm, if_pos (by omega)]
    rw [hsplit, List.drop_left' (by rw [hpre])]
  · rw [Deploy.extract_contract_evm_deployment_prelude, if_pos (by omega)]
    rw [hsplit, List.take_left' (by rw [hpre])]
    simp

/-- Witness for C2 at payloads of length 0, 1, 255 and 65536. -/
theorem codec_roundtrip_witness :
    (Deploy.extract_compressed_wasm
        (Deploy.contract_deployment_calldata []) = some [] ∧
      Deploy.extract_contract_evm_deployment_prelude
          (Deploy.contract_deployment_calldata []) =
        some (0x7f :: (Deploy.to_big_endian_32 (0 : Nat) ++
          [0x80, 0x60, 43, 0x60, 0x00, 0x39, 0x60, 0x00, 0xf3, 0x00]))) ∧
    Deploy.extract_compressed_wasm
        (Deploy.contract_deployment_calldata [7]) = some [7] ∧
    Deploy.extract_compressed_wasm
        (Deploy.contract_deployment_calldata (List.replicate 255 1)) =
      some (List.replicate 255 1) ∧
    Deploy.extract_compressed_wasm
        (Deploy.contract_deployment_calldata (List.replicate 65536 2)) =
      some (List.replicate 65536 2) := by
  have h0 := codec_roundtrip [] (by norm_num)
  have h1 := codec_roundtrip [7] (by norm_num)
  have h255 := codec_roundtrip (List.replicate 255 1)
    (by rw [List.length_replicate]; norm_num)
  have h65536 := codec_roundtrip (List.replicate 65536 2)
    (by rw [List.length_replicate]; norm_num)
  exact ⟨⟨h0.1, h0.2.1⟩, h1.1, h255.1, h65536.1⟩

namespace Check

/-- `EU256::from(n).to_big_endian` as used by check.rs line 121 (the alias
`EU256` is the same ethers `U256` type used by deploy/mod.rs). -/
def to_big_endian_32 (n : Nat) : List Nat :=
  (List.range 32).map fun i => n / 256 ^ (32 - 1 - i) % 256

/-- `contract_deployment_calldata` as duplicated in check.rs lines 119-137. -/
def contract_deployment_calldata (code : List Nat) : List Nat :=
  [0x7f] ++ to_big_endian_32 code.length ++
    [0x80, 0x60, 42 + 1, 0x60, 0x00, 0x39, 0x60, 0x00, 0xf3, 0x00] ++ code

/-- `ContractCheck` (check.rs lines 57-62): the only variant is `Ready` with
the contract code and a data fee. -/
inductive ContractCheck where
  | Ready (code : List Nat) (fee : Nat)
deriving DecidableEq

/-- `ContractCheck::code` (check.rs lines 65-69). -/
def ContractCheck.code : ContractCheck → List Nat
  | .Ready code _ => code

/-- `ContractCheck::suggest_fee` (check.rs lines 70-74). -/
def ContractCheck.suggest_fee : ContractCheck → Nat
  | .Ready _ fee => fee

/-- Results of the external collaborators that `check` calls (check.rs lines
26 and 36-37): `build_wasm` yields a wasm file and a project hash,
`compress_wasm` yields the wasm file bytes and the compressed code. -/
structure CheckEnv where
  build_wasm : Except String (List Nat × List Nat)
  compress_wasm : List Nat → List Nat → Except String (List Nat × List Nat)

/-- `check` (check.rs lines 24-55): builds, compresses, hex-prints the
deployment calldata under the `DEPLOYMENT_CODE` label, and returns
`ContractCheck::Ready` with the wasm file bytes and a fee of
`U256::from(0_u32)`. -/
def check (env : CheckEnv) : Except String ContractCheck :=
  match env.build_wasm with
  | .error e => .error e
  | .ok (wasm, project_hash) =>
    match env.compress_wasm wasm project_hash with
    | .error e => .error e
    | .ok (wasm_file_bytes, code) =>
      let _deploy_code := contract_deployment_calldata code
      .ok (ContractCheck.Ready wasm_file_bytes 0)

end Check

/-- C10: the encoder duplicated in check.rs and the encoder in deploy/mod.rs
produce identical byte sequences for every payload, so the blob printed under
`DEPLOYMENT_CODE` and the blob submitted as transaction input data agree. -/
theorem check_and_deploy_encoders_agree (code : List Nat) :
    Check.contract_deployment_calldata code =
      Deploy.contract_deployment_calldata code := rfl

/-- C9: whenever `check` succeeds it returns the `Ready` variant with a data
fee of exactly zero, so the required-funds amount `suggest_fee + cv` computed
by the deploy driver equals the constructor value `cv` alone. -/
theorem check_fee_is_zero (env : Check.CheckEnv) (r : Check.ContractCheck)
    (h : Check.check env = Except.ok r) :
    (∃ code, r = Check.ContractCheck.Ready code 0) ∧
    r.suggest_fee = 0 ∧ ∀ cv : Nat, r.suggest_fee + cv = cv := by
  unfold Check.check at h
  rcases hb : env.build_wasm with e | ⟨wasm, project_hash⟩ <;> simp only [hb] at h
  · exact Except.noConfusion h
  · rcases hc : env.compress_wasm wasm project_hash with e | ⟨wasm_file_bytes, code⟩ <;>
      simp only [hc, Except.ok.injEq] at h
    · exact Except.noConfusion h
    · subst h
      exact ⟨⟨wasm_file_bytes, rfl⟩, rfl, fun cv => by
        simp [Check.ContractCheck.suggest_fee]⟩

/-- Witness for C9 on a concrete environment where build and compression
succeed. -/
theorem check_fee_is_zero_witness :
    Check.check ⟨Except.ok ([1], [2]), fun _ _ => Except.ok ([3, 4], [5])⟩ =
      Except.ok (Check.ContractCheck.Ready [3, 4] 0) ∧
    (Check.ContractCheck.Ready [3, 4] 0).suggest_fee = 0 :=
  ⟨rfl,
    (check_fee_is_zero ⟨Except.ok ([1], [2]), fun _ _ => Except.ok ([3, 4], [5])⟩
      (Check.ContractCheck.Ready [3, 4] 0) rfl).2.1⟩

namespace Deploy

/-- `Eip1559TransactionRequest` restricted to the fields the driver touches
(deploy/mod.rs lines 90-92 and 160-166): origin, input data, gas limit and
max fee per gas. -/
structure Tx where
  from_ : Option Nat
  data : Option (List Nat)
  gas : Option Nat
  max_fee_per_gas : Option Nat
deriving DecidableEq

/-- `TransactionReceipt` restricted to the fields the driver reads
(deploy/mod.rs lines 116, 120, 128, 176). -/
structure Receipt where
  status : Option Nat
  contract_address : Option Nat
  gas_used : Option Nat
  transaction_hash : Nat
deriving DecidableEq

/-- One call made to the external chain-client capability, recorded in the
order the driver performs it. -/
inductive Call where
  | getChainId
  | getBalance (addr : Nat)
  | estimateGas
  | getGasPrice
  | getTransactionCount (addr : Nat)
  | sendTransaction (tx : Tx)
  | awaitReceipt (tx_hash : Nat)
deriving DecidableEq

/-- The external chain-client capability (the ethers `SignerMiddleware`
client), as a pure oracle: `send_transaction` answers with the tx hash of the
pending transaction, `await_receipt` with the optional receipt the pending
transaction resolves to. -/
structure ChainClient where
  get_chainid : Nat
  get_balance : Nat → Nat
  estimate_gas : Tx → Except String Nat
  get_gas_price : Nat
  get_transaction_count : Nat → Nat
  send_transaction : Tx → Except String Nat
  await_receipt : Nat → Except String (Option Receipt)
  compute_contract_address : Nat → Nat → Nat

/-- The driver's error taxonomy; each `bail!`/`?` site in deploy/mod.rs is
mapped to a structured variant carrying the values its message interpolates. -/
inductive Err where
  | insufficientFunds (sender balance required : Nat)
  | estimation (msg : String)
  | feeOverflow (msg : String)
  | submission (msg : String)
  | receiptWait (msg : String)
  | noReceipt (tx_hash : Nat)
  | reverted (tx_hash : Nat)
  | missingAddress
deriving DecidableEq

/-- `u128::checked_mul` (overflow at `2 ^ 128`). -/
def checked_mul_u128 (a b : Nat) : Option Nat :=
  if a * b < 2 ^ 128 then some (a * b) else none

/-- `U256::checked_mul` (overflow at `2 ^ 256`). -/
def checked_mul_u256 (a b : Nat) : Option Nat :=
  if a * b < 2 ^ 256 then some (a * b) else none

/-- `gwei_to_wei` (deploy/mod.rs lines 229-235): `gwei.checked_mul(10^9)`,
bailing on overflow instead of wrapping. -/
def gwei_to_wei (gwei : Nat) : Except String Nat :=
  match checked_mul_u128 gwei (10 ^ 9) with
  | some wei => .ok wei
  | none => .error ("overflow occurred while converting gwei to wei")

/-- `print_gas_estimate` (deploy/mod.rs lines 134-150): reads the gas price
from the client and reports `gas_price.checked_mul(gas).unwrap_or_default()`
as the total cost (`U256::default` is `0`).  Returns the reported total cost
and the chain-client calls made. -/
def print_gas_estimate (client : ChainClient) (gas : Nat) : Nat × List Call :=
  ((checked_mul_u256 client.get_gas_price gas).getD 0, [Call.getGasPrice])

/-- deploy/mod.rs lines 161-163: `if let Some(gas) = gas { tx.gas = Some(gas) }`. -/
def apply_gas (tx : Tx) : Option Nat → Tx
  | some g => { tx with gas := some g }
  | none => tx

/-- deploy/mod.rs lines 164-166: `if let Some(max_fee) = max_fee_per_gas_gwei
{ tx.max_fee_per_gas = Some(U256::from(gwei_to_wei(max_fee)?)) }`. -/
def apply_max_fee (tx : Tx) : Option Nat → Except String Tx
  | none => .ok tx
  | some max_fee =>
    match gwei_to_wei max_fee with
    | .ok wei => .ok { tx with max_fee_per_gas := some wei }
    | .error e => .error e

/-- `run_tx` (deploy/mod.rs lines 152-180): fix gas and fee fields, submit,
await the receipt, and classify: a missing receipt and a non-success status
are errors (the latter preserving the tx hash); a success receipt is returned
whole. -/
def run_tx (tx : Tx) (gas : Option Nat) (max_fee_per_gas_gwei : Option Nat)
    (client : ChainClient) : Except Err Receipt × List Call :=
  match apply_max_fee (apply_gas tx gas) max_fee_per_gas_gwei with
  | .error e => (.error (.feeOverflow e), [])
  | .ok tx1 =>
    match client.send_transaction tx1 with
    | .error e => (.error (.submission e), [Call.sendTransaction tx1])
    | .ok tx_hash =>
      match client.await_receipt tx_hash with
      | .error e =>
        (.error (.receiptWait e), [Call.sendTransaction tx1, Call.awaitReceipt tx_hash])
      | .ok none =>
        (.error (.noReceipt tx_hash), [Call.sendTransaction tx1, Call.awaitReceipt tx_hash])
      | .ok (some receipt) =>
        if receipt.status = some 1 then
          (.ok receipt, [Call.sendTransaction tx1, Call.awaitReceipt tx_hash])
        else
          (.error (.reverted tx_hash), [Call.sendTransaction tx1, Call.awaitReceipt tx_hash])

/-- `DeployConfig` restricted to the fields the driver reads. -/
structure DeployConfig where
  verbose : Bool
  estimate_gas : Bool
  max_fee_per_gas_gwei : Option Nat
  experimental_constructor_value : Nat

/-- deploy/mod.rs lines 90-92: the deployment transaction request, carrying
the init code as input data and the sender as origin. -/
def mk_deploy_tx (sender : Nat) (code : List Nat) : Tx :=
  ⟨some sender, some (contract_deployment_calldata code), none, none⟩

/-- deploy/mod.rs lines 99-101: `print_gas_estimate` runs (and queries the
gas price) exactly when verbose or estimate-only mode is on. -/
def estimate_report_calls (cfg : DeployConfig) (client : ChainClient) (gas : Nat) :
    List Call :=
  if cfg.verbose || cfg.estimate_gas then (print_gas_estimate client gas).2 else []

/-- `DeployConfig::deploy_contract` (deploy/mod.rs lines 82-131): estimate
gas; in estimate-only mode return the address computed from the sender and
its current nonce without submitting; otherwise submit via `run_tx` and
require the receipt's contract address (`ok_or(eyre!("missing address"))`). -/
def deploy_contract (cfg : DeployConfig) (code : List Nat) (sender : Nat)
    (client : ChainClient) : Except Err Nat × List Call :=
  match client.estimate_gas (mk_deploy_tx sender code) with
  | .error e => (.error (.estimation e), [Call.estimateGas])
  | .ok gas =>
    if cfg.estimate_gas then
      (.ok (client.compute_contract_address sender (client.get_transaction_count sender)),
        Call.estimateGas :: estimate_report_calls cfg client gas ++
          [Call.getTransactionCount sender])
    else
      match run_tx (mk_deploy_tx sender code) (some gas) cfg.max_fee_per_gas_gwei client with
      | (.error e, calls) =>
        (.error e, Call.estimateGas :: estimate_report_calls cfg client gas ++ calls)
      | (.ok receipt, calls) =>
        match receipt.contract_address with
        | none =>
          (.error .missingAddress,
            Call.estimateGas :: estimate_report_calls cfg client gas ++ calls)
        | some contract =>
          (.ok contract, Call.estimateGas :: estimate_report_calls cfg client gas ++ calls)

/-- `deploy` (deploy/mod.rs lines 28-79): after the chain-id query, the data
fee is `contract.suggest_fee() + experimental_constructor_value`, the sender
balance is queried, and when the balance is strictly below the fee outside
estimate-only mode the driver bails with the shortfall context before calling
`deploy_contract`. -/
def deploy (cfg : DeployConfig) (contract : Check.ContractCheck) (sender : Nat)
    (client : ChainClient) : Except Err Unit × List Call :=
  if client.get_balance sender <
        contract.suggest_fee + cfg.experimental_constructor_value ∧
      cfg.estimate_gas = false then
    (.error (.insufficientFunds sender (client.get_balance sender)
        (contract.suggest_fee + cfg.experimental_constructor_value)),
      [Call.getChainId, Call.getBalance sender])
  else
    match deploy_contract cfg contract.code sender client with
    | (.error e, calls) =>
      (.error e, Call.getChainId :: Call.getBalance sender :: calls)
    | (.ok _, calls) =>
      (.ok (), Call.getChainId :: Call.getBalance sender :: calls)

end Deploy

lemma deploy_trace_split (cfg : Deploy.DeployConfig) (contract : Check.ContractCheck)
    (sender : Nat) (client : Deploy.ChainClient) :
    (Deploy.deploy cfg contract sender client).2 =
      if client.get_balance sender <
            contract.suggest_fee + cfg.experimental_constructor_value ∧
          cfg.estimate_gas = false then
        [Deploy.Call.getChainId, Deploy.Call.getBalance sender]
      else
        Deploy.Call.getChainId :: Deploy.Call.getBalance sender ::
          (Deploy.deploy_contract cfg contract.code sender client).2 := by
  unfold Deploy.deploy
  split
  · rfl
  · rcases hdc : Deploy.deploy_contract cfg contract.code sender client with ⟨res, calls⟩
    cases res <;> simp [hdc]

lemma deploy_contract_trace_head (cfg : Deploy.DeployConfig) (code : List Nat)
    (sender : Nat) (client : Deploy.ChainClient) :
    ∃ rest, (Deploy.deploy_contract cfg code sender client).2 =
      Deploy.Call.estimateGas :: rest := by
  unfold Deploy.deploy_contract
  rcases hest : client.estimate_gas (Deploy.mk_deploy_tx sender code) with e | g <;>
    simp only [hest]
  · exact ⟨[], rfl⟩
  · cases hb : cfg.estimate_gas <;> simp only [hb, Bool.false_eq_true, if_false, if_true]
    · rcases hrt : Deploy.run_tx (Deploy.mk_deploy_tx sender code) (some g)
          cfg.max_fee_per_gas_gwei client with ⟨res, calls⟩
      refine ⟨Deploy.estimate_report_calls cfg client g ++ calls, ?_⟩
      cases res with
      | error e => simp [hrt]
      | ok receipt =>
        rcases ha : receipt.contract_address with _ | a <;> simp [hrt, ha]
    · exact ⟨_, rfl⟩

/-- C4: when the sender balance is strictly below the required funds
`suggest_fee + constructor_value` and estimate-only mode is off, `deploy`
terminates with `insufficientFunds` carrying the sender, balance and required
amount, and no transaction-submission call is made in the attempt. -/
theorem deploy_insufficient_funds (cfg : Deploy.DeployConfig)
    (contract : Check.ContractCheck) (sender : Nat) (client : Deploy.ChainClient)
    (hbal : client.get_balance sender <
      contract.suggest_fee + cfg.experimental_constructor_value)
    (hmode : cfg.estimate_gas = false) :
    Deploy.deploy cfg contract sender client =
      (Except.error (Deploy.Err.insufficientFunds sender (client.get_balance sender)
          (contract.suggest_fee + cfg.experimental_constructor_value)),
        [Deploy.Call.getChainId, Deploy.Call.getBalance sender]) ∧
    ∀ c ∈ (Deploy.deploy cfg contract sender client).2,
      ∀ tx, c ≠ Deploy.Call.sendTransaction tx := by
  have h1 : Deploy.deploy cfg contract sender client =
      (Except.error (Deploy.Err.insufficientFunds sender (client.get_balance sender)
          (contract.suggest_fee + cfg.experimental_constructor_value)),
        [Deploy.Call.getChainId, Deploy.Call.getBalance sender]) := by
    unfold Deploy.deploy
    rw [if_pos ⟨hbal, hmode⟩]
  refine ⟨h1, ?_⟩
  intro c hc tx
  rw [h1] at hc
  simp only [List.mem_cons, List.not_mem_nil, or_false] at hc
  rcases hc with rfl | rfl <;> simp

def cfgW4 : Deploy.DeployConfig := ⟨false, false, none, 0⟩

def contractW4 : Check.ContractCheck := .Ready [] 10

def clientW4 : Deploy.ChainClient :=
  ⟨1, fun _ => 5, fun _ => .ok 0, 1, fun _ => 0, fun _ => .ok 0, fun _ => .ok none,
    fun s n => s + n⟩

/-- Witness for C4 at the spec's example: balance 5, required funds 10. -/
theorem deploy_insufficient_funds_witness :
    Deploy.deploy cfgW4 contractW4 2 clientW4 =
      (Except.error (Deploy.Err.insufficientFunds 2 5 10),
        [Deploy.Call.getChainId, Deploy.Call.getBalance 2]) :=
  (deploy_insufficient_funds cfgW4 contractW4 2 clientW4 (by decide) rfl).1

lemma run_tx_receipt_cases (tx1src : Deploy.Tx) (g h : Nat)
    (client : Deploy.ChainClient) (r : Deploy.Receipt)
    (hsend : client.send_transaction (Deploy.apply_gas tx1src (some g)) = Except.ok h)
    (hrec : client.await_receipt h = Except.ok (some r)) :
    Deploy.run_tx tx1src (some g) none client =
      if r.status = some 1 then
        (Except.ok r,
          [Deploy.Call.sendTransaction (Deploy.apply_gas tx1src (some g)),
            Deploy.Call.awaitReceipt h])
      else
        (Except.error (Deploy.Err.reverted h),
          [Deploy.Call.sendTransaction (Deploy.apply_gas tx1src (some g)),
            Deploy.Call.awaitReceipt h]) := by
  unfold Deploy.run_tx
  simp only [Deploy.apply_max_fee, hsend, hrec]

/-- C3: for every receipt delivered by the chain client, the non-estimate
deployment terminates as follows: success status with a contract address
confirms with exactly that address (and the confirming `run_tx` step hands the
whole receipt, including gas used and tx hash, to the reporting code);
non-success status fails with `reverted` preserving the original tx hash; and
success status without a contract address fails with `missingAddress` and in
particular never yields any address. -/
theorem deploy_receipt_classification (cfg : Deploy.DeployConfig)
    (code : List Nat) (sender g h : Nat) (client : Deploy.ChainClient)
    (r : Deploy.Receipt)
    (hmode : cfg.estimate_gas = false)
    (hfee : cfg.max_fee_per_gas_gwei = none)
    (hest : client.estimate_gas (Deploy.mk_deploy_tx sender code) = Except.ok g)
    (hsend : client.send_transaction
        (Deploy.apply_gas (Deploy.mk_deploy_tx sender code) (some g)) = Except.ok h)
    (hrec : client.await_receipt h = Except.ok (some r)) :
    (∀ a, r.status = some 1 → r.contract_address = some a →
      (Deploy.deploy_contract cfg code sender client).1 = Except.ok a ∧
        (Deploy.run_tx (Deploy.mk_deploy_tx sender code) (some g) none client).1 =
          Except.ok r) ∧
    (r.status ≠ some 1 →
      (Deploy.deploy_contract cfg code sender client).1 =
        Except.error (Deploy.Err.reverted h)) ∧
    (r.status = some 1 → r.contract_address = none →
      (Deploy.deploy_contract cfg code sender client).1 =
        Except.error Deploy.Err.missingAddress ∧
      ∀ a, (Deploy.deploy_contract cfg code sender client).1 ≠ Except.ok a) := by
  have hrt := run_tx_receipt_cases (Deploy.mk_deploy_tx sender code) g h client r hsend hrec
  refine ⟨?_, ?_, ?_⟩
  · intro a hs ha
    rw [if_pos hs] at hrt
    constructor
    · simp only [Deploy.deploy_contract, hest, hmode, hfee, Bool.false_eq_true, if_false,
        hrt, ha]
    · rw [hrt]
  · intro hs
    rw [if_neg hs] at hrt
    simp only [Deploy.deploy_contract, hest, hmode, hfee, Bool.false_eq_true, if_false, hrt]
  · intro hs ha
    rw [if_pos hs] at hrt
    have hmain : (Deploy.deploy_contract cfg code sender client).1 =
        Except.error Deploy.Err.missingAddress := by
      simp only [Deploy.deploy_contract, hest, hmode, hfee, Bool.false_eq_true, if_false,
        hrt, ha]
    exact ⟨hmain, fun a => by rw [hmain]; simp⟩

def cfgW3 : Deploy.DeployConfig := ⟨false, false, none, 0⟩

def receiptW3 : Deploy.Receipt := ⟨some 1, some 5, some 21000, 77⟩

def clientW3 : Deploy.ChainClient :=
  ⟨1, fun _ => 100, fun _ => .ok 21000, 1, fun _ => 0, fun _ => .ok 77,
    fun _ => .ok (some receiptW3), fun s n => s + n⟩

/-- Witness for C3: a success receipt carrying address 5 confirms with
address 5. -/
theorem deploy_receipt_classification_witness :
    (Deploy.deploy_contract cfgW3 [1] 9 clientW3).1 = Except.ok 5 :=
  ((deploy_receipt_classification cfgW3 [1] 9 21000 77 clientW3 receiptW3
    rfl rfl rfl rfl rfl).1 5 rfl rfl).1

lemma estimate_only_no_submission (cfg : Deploy.DeployConfig) (code : List Nat)
    (sender : Nat) (client : Deploy.ChainClient) (hmode : cfg.estimate_gas = true) :
    ∀ c ∈ (Deploy.deploy_contract cfg code sender client).2,
      (∀ tx, c ≠ Deploy.Call.sendTransaction tx) ∧
        ∀ hsh, c ≠ Deploy.Call.awaitReceipt hsh := by
  intro c hc
  rcases hest : client.estimate_gas (Deploy.mk_deploy_tx sender code) with e | g <;>
    simp [Deploy.deploy_contract, hest, hmode, Deploy.estimate_report_calls,
      Deploy.print_gas_estimate] at hc
  · subst hc
    exact ⟨fun tx => by simp, fun hsh => by simp⟩
  · rcases hc with rfl | rfl | rfl <;>
      exact ⟨fun tx => by simp, fun hsh => by simp⟩

/-- C8: in estimate-only mode no transaction-submission and no receipt-await
call is ever made (neither by `deploy_contract` nor by the surrounding
`deploy`), and when gas estimation succeeds `deploy_contract` returns the
address computed from the sender and the sender's current transaction count
as reported by the chain client. -/
theorem deploy_estimate_only (cfg : Deploy.DeployConfig) (code : List Nat)
    (sender : Nat) (client : Deploy.ChainClient) (hmode : cfg.estimate_gas = true) :
    (∀ c ∈ (Deploy.deploy_contract cfg code sender client).2,
      (∀ tx, c ≠ Deploy.Call.sendTransaction tx) ∧
        ∀ hsh, c ≠ Deploy.Call.awaitReceipt hsh) ∧
    (∀ contract : Check.ContractCheck,
      ∀ c ∈ (Deploy.deploy cfg contract sender client).2,
        (∀ tx, c ≠ Deploy.Call.sendTransaction tx) ∧
          ∀ hsh, c ≠ Deploy.Call.awaitReceipt hsh) ∧
    ∀ g, client.estimate_gas (Deploy.mk_deploy_tx sender code) = Except.ok g →
      (Deploy.deploy_contract cfg code sender client).1 =
        Except.ok (client.compute_contract_address sender
          (client.get_transaction_count sender)) := by
  refine ⟨estimate_only_no_submission cfg code sender client hmode, ?_, ?_⟩
  · intro contract c hc
    rw [deploy_trace_split] at hc
    have hcond : ¬ (client.get_balance sender <
        contract.suggest_fee + cfg.experimental_constructor_value ∧
        cfg.estimate_gas = false) := by
      rintro ⟨-, hfalse⟩
      rw [hmode] at hfalse
      exact Bool.noConfusion hfalse
    rw [if_neg hcond] at hc
    simp only [List.mem_cons] at hc
    rcases hc with rfl | rfl | hc
    · exact ⟨fun tx => by simp, fun hsh => by simp⟩
    · exact ⟨fun tx => by simp, fun hsh => by simp⟩
    · exact estimate_only_no_submission cfg contract.code sender client hmode c hc
  · intro g hg
    simp only [Deploy.deploy_contract, hg, hmode, if_true]

def cfgW8 : Deploy.DeployConfig := ⟨false, true, none, 0⟩

def clientW8 : Deploy.ChainClient :=
  ⟨1, fun _ => 0, fun _ => .ok 21000, 1, fun _ => 6, fun _ => .ok 0, fun _ => .ok none,
    fun s n => s * 1000 + n⟩

/-- Witness for C8: with nonce 6 and sender 4 the estimate-only run returns
the computed address `4 * 1000 + 6`. -/
theorem deploy_estimate_only_witness :
    (Deploy.deploy_contract cfgW8 [] 4 clientW8).1 = Except.ok 4006 :=
  (deploy_estimate_only cfgW8 [] 4 clientW8 rfl).2.2 21000 rfl

def cfgC6 : Deploy.DeployConfig := ⟨false, false, none, 0⟩

def contractC6 : Check.ContractCheck := .Ready [] 0

def receiptC6 : Deploy.Receipt := ⟨some 1, some 5, some 21000, 99⟩

def clientC6 : Deploy.ChainClient :=
  ⟨1, fun _ => 0, fun _ => .ok 21000, 1, fun _ => 0, fun _ => .ok 99,
    fun _ => .ok (some receiptC6), fun s n => s + n⟩

def estimate_or_balance_call : Deploy.Call → Bool
  | .estimateGas => true
  | .getBalance _ => true
  | _ => false

/-- C6 counterexample: in a complete, successful deployment run the first of
the two chain-client calls {gas estimate, balance query} is the balance
query, refuting the claimed `Init → GasEstimated → BalanceChecked` order (the
code checks the balance before requesting the gas estimate). -/
theorem deploy_gas_estimate_not_before_balance :
    ((Deploy.deploy cfgC6 contractC6 7 clientC6).2.filter estimate_or_balance_call) =
      [Deploy.Call.getBalance 7, Deploy.Call.estimateGas] ∧
    ((Deploy.deploy cfgC6 contractC6 7 clientC6).2.filter
        estimate_or_balance_call).head? ≠ some Deploy.Call.estimateGas := by
  constructor
  · decide
  · decide

/-- C6 amended: in every deployment attempt the trace starts with the chain-id
query and the sender-balance query, and only afterwards (when the
funds-sufficiency check passes or estimate-only mode is on) comes the
gas-estimate request, which is the first thing `deploy_contract` does; i.e.
the order is Init, BalanceChecked, GasEstimated, then submission. -/
theorem deploy_balance_check_precedes_estimate (cfg : Deploy.DeployConfig)
    (contract : Check.ContractCheck) (sender : Nat) (client : Deploy.ChainClient) :
    ∃ rest, (Deploy.deploy cfg contract sender client).2 =
        Deploy.Call.getChainId :: Deploy.Call.getBalance sender :: rest ∧
      (rest = [] ∨ ∃ tail, rest = Deploy.Call.estimateGas :: tail) := by
  rw [deploy_trace_split]
  split
  · exact ⟨[], rfl, Or.inl rfl⟩
  · obtain ⟨tail, htail⟩ :=
      deploy_contract_trace_head cfg contract.code sender client
    exact ⟨(Deploy.deploy_contract cfg contract.code sender client).2, rfl,
      Or.inr ⟨tail, htail⟩⟩

/-- Modelled from the spec: `total_cost = gas_price * gas_units` computed with
saturating multiplication on the 256-bit range. -/
def spec_saturating_mul_u256 (a b : Nat) : Nat := min (a * b) (2 ^ 256 - 1)

def clientC5 : Deploy.ChainClient :=
  ⟨1, fun _ => 0, fun _ => .ok 2, 2 ^ 255, fun _ => 0, fun _ => .ok 0,
    fun _ => .ok none, fun s n => s + n⟩

/-- C5 counterexample: at gas price `2 ^ 255` and gas estimate 2 the code
reports total cost 0 (`checked_mul` with `unwrap_or_default`), while the
claimed saturating multiplication yields `2 ^ 256 - 1`. -/
theorem print_gas_estimate_not_saturating :
    (Deploy.print_gas_estimate clientC5 2).1 = 0 ∧
    spec_saturating_mul_u256 clientC5.get_gas_price 2 = 2 ^ 256 - 1 ∧
    (Deploy.print_gas_estimate clientC5 2).1 ≠
      spec_saturating_mul_u256 clientC5.get_gas_price 2 := by
  have h1 : (Deploy.print_gas_estimate clientC5 2).1 = 0 := by
    have hnot : ¬ ((2 : Nat) ^ 255 * 2 < 2 ^ 256) := by norm_num [pow_succ]
    simp [Deploy.print_gas_estimate, Deploy.checked_mul_u256, clientC5, hnot]
  have h2 : spec_saturating_mul_u256 clientC5.get_gas_price 2 = 2 ^ 256 - 1 := by
    have hle : (2 : Nat) ^ 256 - 1 ≤ 2 ^ 255 * 2 := by norm_num [pow_succ]
    simp [spec_saturating_mul_u256, clientC5, Nat.min_eq_right hle]
  refine ⟨h1, h2, ?_⟩
  rw [h1, h2]
  norm_num

/-- C5 amended: the total deployment cost reported by the estimate step is
the exact product `gas_price * gas` whenever that product is representable in
256 bits, and 0 (the `unwrap_or_default` fallback, not a wrapped or saturated
value) when it overflows. -/
theorem print_gas_estimate_total_cost (client : Deploy.ChainClient) (gas : Nat) :
    (client.get_gas_price * gas < 2 ^ 256 →
      (Deploy.print_gas_estimate client gas).1 = client.get_gas_price * gas) ∧
    (2 ^ 256 ≤ client.get_gas_price * gas →
      (Deploy.print_gas_estimate client gas).1 = 0) := by
  constructor
  · intro h
    simp only [Deploy.print_gas_estimate, Deploy.checked_mul_u256]
    rw [if_pos h]
    rfl
  · intro h
    simp only [Deploy.print_gas_estimate, Deploy.checked_mul_u256]
    rw [if_neg (Nat.not_lt.mpr h)]
    rfl

def clientW5 : Deploy.ChainClient :=
  ⟨1, fun _ => 0, fun _ => .ok 3, 7, fun _ => 0, fun _ => .ok 0,
    fun _ => .ok none, fun s n => s + n⟩

/-- Witness for C5 (amended) on both sides: an in-range product and an
overflowing one. -/
theorem print_gas_estimate_total_cost_witness :
    (Deploy.print_gas_estimate clientW5 3).1 = 21 ∧
    (Deploy.print_gas_estimate clientC5 2).1 = 0 :=
  ⟨(print_gas_estimate_total_cost clientW5 3).1 (by norm_num [clientW5]),
    (print_gas_estimate_total_cost clientC5 2).2 (by norm_num [clientC5, pow_succ])⟩

lemma apply_gas_max_fee_comm (tx : Deploy.Tx) (gas : Option Nat) (wei : Nat) :
    { Deploy.apply_gas tx gas with max_fee_per_gas := some wei } =
      Deploy.apply_gas { tx with max_fee_per_gas := some wei } gas := by
  cases gas <;> rfl

/-- C7: `gwei_to_wei 1 = 10^9`; for every `u128` input the conversion errors
(rather than wrapping) exactly when the exact product `g * 10^9` exceeds the
`u128` range; a successfully converted caller-supplied ceiling is written into
the transaction's max-fee-per-gas field before submission, and a conversion
overflow aborts `run_tx` with an error before any chain-client call. -/
theorem gwei_to_wei_spec :
    Deploy.gwei_to_wei 1 = Except.ok 1000000000 ∧
    (∀ g : Nat, g < 2 ^ 128 →
      ((∃ e, Deploy.gwei_to_wei g = Except.error e) ↔ 2 ^ 128 ≤ g * 10 ^ 9)) ∧
    (∀ (tx : Deploy.Tx) (gas : Option Nat) (mf wei : Nat)
        (client : Deploy.ChainClient),
      Deploy.gwei_to_wei mf = Except.ok wei →
        Deploy.run_tx tx gas (some mf) client =
          Deploy.run_tx { tx with max_fee_per_gas := some wei } gas none client) ∧
    ∀ (tx : Deploy.Tx) (gas : Option Nat) (mf : Nat) (client : Deploy.ChainClient)
        (e : String),
      Deploy.gwei_to_wei mf = Except.error e →
        Deploy.run_tx tx gas (some mf) client =
          (Except.error (Deploy.Err.feeOverflow e), []) := by
  refine ⟨?_, ?_, ?_, ?_⟩
  · norm_num [Deploy.gwei_to_wei, Deploy.checked_mul_u128]
  · intro g hg
    constructor
    · rintro ⟨e, he⟩
      by_cases hlt : g * 10 ^ 9 < 2 ^ 128
      · unfold Deploy.gwei_to_wei Deploy.checked_mul_u128 at he
        rw [if_pos hlt] at he
        exact Except.noConfusion he
      · exact Nat.not_lt.mp hlt
    · intro hge
      refine ⟨("overflow occurred while converting gwei to wei" : String), ?_⟩
      unfold Deploy.gwei_to_wei Deploy.checked_mul_u128
      rw [if_neg (Nat.not_lt.mpr hge)]
  · intro tx gas mf wei client hmf
    unfold Deploy.run_tx
    simp only [Deploy.apply_max_fee, hmf, apply_gas_max_fee_comm]
  · intro tx gas mf client e hmf
    unfold Deploy.run_tx
    simp only [Deploy.apply_max_fee, hmf]

def txW7 : Deploy.Tx := ⟨none, none, none, none⟩

def clientW7 : Deploy.ChainClient :=
  ⟨1, fun _ => 0, fun _ => .ok 0, 1, fun _ => 0, fun _ => .ok 0,
    fun _ => .ok none, fun s n => s + n⟩

/-- Witness for C7: `gwei_to_wei (2 ^ 125)` overflows, and a ceiling of 1 gwei
is written into the max-fee field as `10^9` wei. -/
theorem gwei_to_wei_spec_witness :
    (∃ e, Deploy.gwei_to_wei (2 ^ 125) = Except.error e) ∧
    Deploy.run_tx txW7 none (some 1) clientW7 =
      Deploy.run_tx { txW7 with max_fee_per_gas := some 1000000000 } none none
        clientW7 :=
  ⟨(gwei_to_wei_spec.2.1 (2 ^ 125) (by norm_num)).mpr (by norm_num),
    gwei_to_wei_spec.2.2.1 txW7 none 1 1000000000 clientW7 gwei_to_wei_spec.1⟩
